import Mathlib

/-!
Verification of the kontent-ai migration toolkit core against its
natural-language specification.

The TypeScript sources are shallowly embedded: effectful management-API
calls are modelled by explicit outcome parameters and by traces of the
calls a run performs, and fallible code returns `Except`.  Every
definition is translated from the corresponding source function; a few
external-library helpers (the uuid validator and the uuid-by-string
hash) are modelled from their documented behaviour and say so in their
doc comments.
-/

namespace Migration

/-! ## String helpers -/

/-- Substring containment, stated on the underlying character lists so
that it is decidable on concrete strings. -/
def hasSub (sub s : String) : Prop := sub.data <:+: s.data

instance (sub s : String) : Decidable (hasSub sub s) :=
  List.decidableInfix sub.data s.data

theorem string_data_append (a b : String) : (a ++ b).data = a.data ++ b.data := by
  cases a; cases b; rfl

theorem hasSub_of_eq_append (sub s pre suf : String)
    (h : s = pre ++ sub ++ suf) : hasSub sub s := by
  refine ⟨pre.data, suf.data, ?_⟩
  subst h
  simp [string_data_append]

/-- Embedding of the JavaScript `toLowerCase()` on the ASCII range the
codenames live in, written over the character list so that it reduces
inside the kernel. -/
def jsToLower (s : String) : String :=
  String.mk (s.data.map (fun c =>
    if 65 ≤ c.toNat && c.toNat ≤ 90 then Char.ofNat (c.toNat + 32) else c))

/-- Embedding of the JavaScript `Array.prototype.join` used when the
workflow error message enumerates the available workflow codenames. -/
def joinSep (sep : String) : List String → String
  | [] => ""
  | [x] => x
  | x :: y :: rest => x ++ sep ++ joinSep sep (y :: rest)

theorem hasSub_joinSep (sep x : String) (l : List String) (hx : x ∈ l) :
    hasSub x (joinSep sep l) := by
  induction l with
  | nil => cases hx
  | cons a rest ih =>
    rcases List.mem_cons.mp hx with hx | hx
    · subst hx
      cases rest with
      | nil => exact hasSub_of_eq_append x (joinSep sep [x]) "" "" (by simp [joinSep])
      | cons b rest2 =>
        exact hasSub_of_eq_append x (joinSep sep (x :: b :: rest2)) ""
          (sep ++ joinSep sep (b :: rest2)) (by simp [joinSep, String.append_assoc])
    · cases rest with
      | nil => cases hx
      | cons b rest2 =>
        obtain ⟨pre, suf, hps⟩ := ih hx
        refine ⟨(a ++ sep).data ++ pre, suf, ?_⟩
        simp [joinSep, string_data_append, hps]

/-! ## C1: per-item error handling in `ImportContentItemHelper.importContentItemsAsync`

The source iterates over the categorized regular items and for each one
awaits `importContentItemAsync` (modelled by the per-item outcome in the
input list).  In the source the `await` stands immediately BEFORE an
empty `try` block, and the `catch` that inspects
`config.skipFailedItems` is attached to that empty block, so an error
thrown by the per-item call is never caught there. -/

/-- Per-item import outcomes as produced by `importContentItemAsync`:
`Except.ok` carries the prepared content item pushed into the result,
`Except.error` models a thrown error. -/
def importContentItemsRun (skipFailedItems : Bool) :
    List (Except String α) → Except String (List α)
  | [] => Except.ok []
  | outcome :: rest =>
    match outcome with
    | Except.error e => Except.error e
    | Except.ok item => (importContentItemsRun skipFailedItems rest).map (item :: ·)

/-- The behaviour the claim (and the spec) describe: with
`skipFailedItems = true` a failing item is logged, omitted from the
result and its siblings continue; with `false` the first error aborts. -/
def importContentItemsClaimed (skipFailedItems : Bool) :
    List (Except String α) → Except String (List α)
  | [] => Except.ok []
  | outcome :: rest =>
    match outcome with
    | Except.error e =>
      if skipFailedItems then importContentItemsClaimed skipFailedItems rest
      else Except.error e
    | Except.ok item => (importContentItemsClaimed skipFailedItems rest).map (item :: ·)

/-! ## C2: `ImportContentItemHelper.shouldUpdateContentItem` -/

structure Collection where
  id : String
  codename : String
deriving DecidableEq, Repr

/-- The `system` part of a parsed content item (`IParsedContentItem`). -/
structure ParsedContentItemSystem where
  name : String
  type : String
  codename : String
  collection : String
deriving DecidableEq, Repr

/-- Model of `ContentItemModels.ContentItem` as far as the reconciler
reads it: its display name, codename, and the id of the collection the
target item currently lives in. -/
structure TargetContentItem where
  name : String
  codename : String
  collectionId : String
deriving DecidableEq, Repr

/-- `shouldUpdateContentItem`: looks the incoming collection codename up
in the target collection list; a missing collection is a fatal error
(`logErrorAndExit`), modelled as `none`.  Otherwise the result is the
disjunction written in the source: name differs, or the incoming
collection codename differs from the codename of the collection that
was just found BY that same codename. -/
def shouldUpdateContentItem (parsedContentItem : ParsedContentItemSystem)
    (contentItem : TargetContentItem) (collections : List Collection) :
    Option Bool :=
  match collections.find? (fun m => m.codename == parsedContentItem.collection) with
  | none => none
  | some collection =>
    some (parsedContentItem.name != contentItem.name
      || parsedContentItem.collection != collection.codename)

inductive ImportAction where
  | upsert
  | skip
deriving DecidableEq, Repr

/-- The `itemAlreadyExists` branch of `importContentItemAsync`: upsert
when `shouldUpdateContentItem` answers true, otherwise skip. -/
def importExistingItemAction (parsedContentItem : ParsedContentItemSystem)
    (contentItem : TargetContentItem) (collections : List Collection) :
    Option ImportAction :=
  (shouldUpdateContentItem parsedContentItem contentItem collections).map
    (fun b => if b then ImportAction.upsert else ImportAction.skip)

/-- The collection codename the target item actually has, obtained by
resolving its collection id against the collection list; this is what
the claim means by the target collection codename, and what the source
never consults. -/
def targetCollectionCodename (contentItem : TargetContentItem)
    (collections : List Collection) : Option String :=
  (collections.find? (fun m => m.id == contentItem.collectionId)).map Collection.codename

/-! ## Workflow service (`ImportWorkflowService`, claims C3, C4, C8)

The management client is modelled by the trace of calls a run performs;
the only call the source wraps in a try/catch is unpublish, so only its
outcome is a parameter of the run. -/

structure WorkflowStep where
  codename : String
  id : String
deriving DecidableEq, Repr

structure Workflow where
  codename : String
  publishedStep : WorkflowStep
  archivedStep : WorkflowStep
  scheduledStep : WorkflowStep
  steps : List WorkflowStep
deriving DecidableEq, Repr

/-- `getWorkflowStep`: the archived, published and scheduled steps are
checked first, then the regular steps list. -/
def getWorkflowStep (workflow : Workflow) (stepCodename : String) :
    Option WorkflowStep :=
  if workflow.archivedStep.codename == stepCodename then
    some ⟨workflow.archivedStep.codename, workflow.archivedStep.id⟩
  else if workflow.publishedStep.codename == stepCodename then
    some ⟨workflow.publishedStep.codename, workflow.publishedStep.id⟩
  else if workflow.scheduledStep.codename == stepCodename then
    some ⟨workflow.scheduledStep.codename, workflow.scheduledStep.id⟩
  else
    workflow.steps.find? (fun m => m.codename == stepCodename)

/-- Error text thrown when the workflow codename is unknown; the chalk
colouring of the source is omitted, the words and the enumeration of the
available codenames are kept. -/
def unknownWorkflowMsg (workflowCodename : String) (workflows : List Workflow) : String :=
  "Workflow with codename \x27" ++ workflowCodename ++
    "\x27 does not exist in target project" ++ ". " ++
    "Available workflows are (" ++ toString workflows.length ++ "): " ++
    joinSep ", " (workflows.map Workflow.codename)

/-- Error text thrown when the step codename is not found inside the
resolved workflow (the source misspells worklflow; kept verbatim). -/
def unknownStepMsg (workflowStepCodename : String) (workflow : Workflow) : String :=
  "Workflow step with codename \x27" ++ workflowStepCodename ++
    "\x27 does not exist within worklflow \x27" ++ workflow.codename ++ "\x27"

/-- `getWorkflowAndStep`: resolve the workflow case-insensitively by
codename, then the step inside it; each failure throws the message
built above. -/
def getWorkflowAndStep (workflowStepCodename workflowCodename : String)
    (workflows : List Workflow) : Except String (Workflow × WorkflowStep) :=
  match workflows.find? (fun m => jsToLower m.codename == jsToLower workflowCodename) with
  | none => Except.error (unknownWorkflowMsg workflowCodename workflows)
  | some workflow =>
    match getWorkflowStep workflow workflowStepCodename with
    | none => Except.error (unknownStepMsg workflowStepCodename workflow)
    | some workflowStep => Except.ok (workflow, workflowStep)

def doesRepresentPublishedStep (stepCodename : String) (workflows : List Workflow) : Bool :=
  workflows.any (fun workflow => workflow.publishedStep.codename == stepCodename)

def doesRepresentArchivedStep (stepCodename : String) (workflows : List Workflow) : Bool :=
  workflows.any (fun workflow => workflow.archivedStep.codename == stepCodename)

def doesRepresentScheduledStep (stepCodename : String) (workflows : List Workflow) : Bool :=
  workflows.any (fun workflow => workflow.scheduledStep.codename == stepCodename)

/-- One management-API call of the workflow engine. -/
inductive MapiCall where
  | publish
  | unpublish
  | changeWorkflow (stepCodename : String) (workflowCodename : String)
deriving DecidableEq, Repr

/-- Outcome of the one call the source guards with try/catch: the
unpublish attempt.  `domainError` is the recognized
`ContentManagementBaseKontentError`; `otherError` is anything else. -/
inductive UnpublishOutcome where
  | success
  | domainError (msg : String)
  | otherError (e : String)
deriving DecidableEq, Repr

structure WorkflowRunResult where
  calls : List MapiCall
  result : Except String Unit
deriving Repr

/-- `setWorkflowOfLanguageVariantAsync`.  Note that the function never
receives the current workflow step of the language variant; the final
branch skips the change-workflow call exactly when the workflow
codename equals the target step codename. -/
def setWorkflowOfLanguageVariant (workflows : List Workflow)
    (workflowCodename workflowStepCodename : String)
    (unpublishOutcome : UnpublishOutcome) : WorkflowRunResult :=
  match getWorkflowAndStep workflowStepCodename workflowCodename workflows with
  | Except.error e => ⟨[], Except.error e⟩
  | Except.ok (workflow, step) =>
    if doesRepresentPublishedStep workflowStepCodename workflows then
      ⟨[MapiCall.publish], Except.ok ()⟩
    else if doesRepresentScheduledStep workflowStepCodename workflows then
      ⟨[], Except.ok ()⟩
    else if doesRepresentArchivedStep workflowStepCodename workflows then
      match unpublishOutcome with
      | UnpublishOutcome.otherError e => ⟨[MapiCall.unpublish], Except.error e⟩
      | _ =>
        ⟨[MapiCall.unpublish,
          MapiCall.changeWorkflow workflow.archivedStep.codename workflow.codename],
          Except.ok ()⟩
    else
      if workflow.codename == workflowStepCodename then
        ⟨[], Except.ok ()⟩
      else
        ⟨[MapiCall.changeWorkflow step.codename workflow.codename], Except.ok ()⟩

/-! ## C5: `ImportContentItemHelper.prepareContentItemAsync` -/

/-- Model of `ContentItemModels.ContentItem` as returned by the
management API for the prepare path. -/
structure MgmtContentItem where
  name : String
  codename : String
  typeCodename : String
  collectionCodename : String
deriving DecidableEq, Repr

/-- Outcome of the initial `viewContentItem` call: the item exists, the
call fails with a 404, or it fails with any other error. -/
inductive ViewOutcome where
  | found (item : MgmtContentItem)
  | notFound404
  | otherError (e : String)
deriving DecidableEq, Repr

inductive ItemMapiCall where
  | view (codename : String)
  | addItem (name typeCodename codename collectionCodename : String)
deriving DecidableEq, Repr

inductive PrepareStatus where
  | created
  | itemAlreadyExists
deriving DecidableEq, Repr

structure PrepareRun where
  calls : List ItemMapiCall
  result : Except String (MgmtContentItem × PrepareStatus)
deriving Repr

/-- `prepareContentItemAsync`: view the item by codename; on success
report `itemAlreadyExists`; on a 404 create the item from the incoming
system fields and report `created`; rethrow any other view error. -/
def prepareContentItem (parsedContentItem : ParsedContentItemSystem)
    (viewOutcome : ViewOutcome) : PrepareRun :=
  match viewOutcome with
  | ViewOutcome.found item =>
    ⟨[ItemMapiCall.view parsedContentItem.codename],
      Except.ok (item, PrepareStatus.itemAlreadyExists)⟩
  | ViewOutcome.notFound404 =>
    ⟨[ItemMapiCall.view parsedContentItem.codename,
      ItemMapiCall.addItem parsedContentItem.name parsedContentItem.type
        parsedContentItem.codename parsedContentItem.collection],
      Except.ok
        (⟨parsedContentItem.name, parsedContentItem.codename,
          parsedContentItem.type, parsedContentItem.collection⟩,
          PrepareStatus.created)⟩
  | ViewOutcome.otherError e =>
    ⟨[ItemMapiCall.view parsedContentItem.codename], Except.error e⟩

/-! ## C6: `shouldUpdateAsset` and `shouldReplaceBinaryFile` -/

structure MigAssetDescription where
  languageCodename : String
  description : Option String
deriving DecidableEq, Repr

/-- Model of `MigrationAsset`: the binary data is represented by the
size `geSizeInBytes` computes for it. -/
structure MigrationAssetM where
  collection : Option String
  descriptions : Option (List MigAssetDescription)
  title : Option String
  filename : String
  binarySize : Nat
deriving DecidableEq, Repr

structure TargetAssetDescription where
  languageId : String
  description : Option String
deriving DecidableEq, Repr

/-- Model of `AssetModels.Asset` as read by the update decision. -/
structure TargetAsset where
  collectionId : Option String
  descriptions : List TargetAssetDescription
  title : Option String
  fileName : String
  size : Nat
deriving DecidableEq, Repr

structure LanguageModel where
  id : String
  codename : String
deriving DecidableEq, Repr

/-- The `x?.length ? x : undefined` normalization applied to titles and
descriptions: an absent or empty string becomes absent. -/
def normalizeNonEmpty (s : Option String) : Option String :=
  match s with
  | some v => if v.length != 0 then some v else none
  | none => none

def isBinaryFileIdentical (migrationAsset : MigrationAssetM) (targetAsset : TargetAsset) : Bool :=
  migrationAsset.binarySize == targetAsset.size
    && migrationAsset.filename == targetAsset.fileName

def isTitleIdentical (migrationAsset : MigrationAssetM) (targetAsset : TargetAsset) : Bool :=
  normalizeNonEmpty migrationAsset.title == normalizeNonEmpty targetAsset.title

/-- `isInSameCollection`: resolve the target collection id to a
codename (absent when the id is absent or unknown) and compare it with
the incoming collection codename; two absent sides compare equal, as
the strict equality on two undefined values does in the source. -/
def isInSameCollection (migrationAsset : MigrationAssetM) (targetAsset : TargetAsset)
    (collections : List Collection) : Bool :=
  ((collections.find? (fun m => some m.id == targetAsset.collectionId)).map
    Collection.codename) == migrationAsset.collection

def sourceNormalizedDescriptions (migrationAsset : MigrationAssetM) :
    List MigAssetDescription :=
  (migrationAsset.descriptions.getD []).map
    (fun d => ⟨d.languageCodename, normalizeNonEmpty d.description⟩)

/-- `mapToMigrationDescriptions`: each target description language id is
resolved through `findRequired`, whose failure is a thrown error. -/
def mapToMigrationDescriptions (targetAsset : TargetAsset)
    (languages : List LanguageModel) : Except String (List MigAssetDescription) :=
  targetAsset.descriptions.mapM (fun d =>
    match languages.find? (fun language => language.id == d.languageId) with
    | some language =>
      Except.ok (⟨language.codename, normalizeNonEmpty d.description⟩ : MigAssetDescription)
    | none =>
      Except.error ("Could not find language with id \x27" ++ d.languageId ++ "\x27"))

/-- `areDescriptionsIdentical`: both sides are normalized and compared
with deepEqual.  The `toSorted()` of the source sorts records under the
default string comparator, for which all records stringify alike, so
the stable sort keeps both lists in their original order and the
comparison is plain list equality. -/
def areDescriptionsIdentical (migrationAsset : MigrationAssetM) (targetAsset : TargetAsset)
    (languages : List LanguageModel) : Except String Bool :=
  (mapToMigrationDescriptions targetAsset languages).map
    (fun targetMigrationDescriptions =>
      sourceNormalizedDescriptions migrationAsset == targetMigrationDescriptions)

/-- `shouldUpdateAsset`: the four early-return checks of the source, in
source order. -/
def shouldUpdateAsset (migrationAsset : MigrationAssetM) (targetAsset : TargetAsset)
    (collections : List Collection) (languages : List LanguageModel) :
    Except String Bool :=
  if !(isInSameCollection migrationAsset targetAsset collections) then
    Except.ok true
  else
    match areDescriptionsIdentical migrationAsset targetAsset languages with
    | Except.error e => Except.error e
    | Except.ok descriptionsIdentical =>
      if !descriptionsIdentical then Except.ok true
      else if !(isTitleIdentical migrationAsset targetAsset) then Except.ok true
      else if !(isBinaryFileIdentical migrationAsset targetAsset) then Except.ok true
      else Except.ok false

def shouldReplaceBinaryFile (migrationAsset : MigrationAssetM)
    (targetAsset : TargetAsset) : Bool :=
  if !(isBinaryFileIdentical migrationAsset targetAsset) then true else false

/-! ## C7: `ElementTranslationHelper.convertComponentCodenameToId` -/

def isHexDigit (c : Char) : Bool :=
  (Char.ofNat 48 ≤ c && c ≤ Char.ofNat 57)
    || (Char.ofNat 97 ≤ c && c ≤ Char.ofNat 102)

/-- Modelled from the spec: `validate` of the external uuid package,
which accepts the nil uuid or an 8-4-4-4-12 hex string with version
digit 1-5 and variant digit 8, 9, a or b, case-insensitively. -/
def validateUuid (s : String) : Bool :=
  let t := jsToLower s
  if t == "00000000-0000-0000-0000-000000000000" then true
  else
    let cs := t.data
    cs.length == 36
      && (List.range 36).all (fun i =>
        match cs[i]? with
        | some c =>
          if i == 8 || i == 13 || i == 18 || i == 23 then c == Char.ofNat 45
          else if i == 14 then Char.ofNat 49 ≤ c && c ≤ Char.ofNat 53
          else if i == 19 then
            c == Char.ofNat 56 || c == Char.ofNat 57
              || c == Char.ofNat 97 || c == Char.ofNat 98
          else isHexDigit c
        | none => false)

def hexDigitChar16 (n : Nat) : Char :=
  if n < 10 then Char.ofNat (48 + n) else Char.ofNat (97 + (n - 10))

/-- Modelled from the spec: the external uuid-by-string library derives
a stable hash uuid from its input string; it is a pure function of the
string, modelled here as a deterministic polynomial hash spread over
the uuid digit positions. -/
def uuidByString (s : String) : String :=
  let h : Nat := s.data.foldl (fun acc c => (acc * 31 + c.toNat) % (2 ^ 64)) 5381
  let digit := fun (k : Nat) => hexDigitChar16 ((h / 16 ^ k) % 16)
  let block := fun (a b : Nat) =>
    String.mk ((List.range (b - a)).map (fun i => digit (a + i)))
  block 0 8 ++ "-" ++ block 8 12 ++ "-3" ++ block 12 15 ++ "-9" ++
    block 15 18 ++ "-" ++ block 18 30

/-- The `replaceAll` of every underscore by a dash; as the pattern is a
single character this is a character map. -/
def underscoreToDash (s : String) : String :=
  String.mk (s.data.map (fun c => if c == Char.ofNat 95 then Char.ofNat 45 else c))

/-- `convertComponentCodenameToId`: normalize underscores to dashes; a
valid uuid candidate is returned as-is, anything else is hashed. -/
def convertComponentCodenameToId (codename : String) : String :=
  let uuidCandidate := underscoreToDash codename
  if !(validateUuid uuidCandidate) then
    uuidByString codename
  else
    uuidCandidate

/-! ## C9: the text and custom import transforms -/

/-- A portable element value as the import transforms receive it:
`string | string[] | undefined`, with `undefined` as the outer
`Option`. -/
inductive PortableValue where
  | str (s : String)
  | arr (l : List String)
deriving DecidableEq, Repr

/-- JavaScript `toString()` on such a value: a string is itself, an
array joins its elements with commas. -/
def jsToString : PortableValue → String
  | PortableValue.str s => s
  | PortableValue.arr l => joinSep "," l

/-- The `text` import transform value: `data.value?.toString() ?? null`. -/
def textImportTransform (value : Option PortableValue) : Option String :=
  match value with
  | some v => some (jsToString v)
  | none => none

/-- The `custom` import transform value: `data.value?.toString() ?? ""`. -/
def customImportTransform (value : Option PortableValue) : Option String :=
  match value with
  | some v => some (jsToString v)
  | none => some ""

/-! ## C10: `ExportContextService.getItemStatesAsync` and
`getAssetStatesAsync`

The source environment is modelled as a function from id to the entity
the view call returns, `none` standing for a 404 (which
`getContentItemsByIdsAsync` and `getAssetsByIdsAsync` swallow, simply
not pushing anything for that id). -/

structure SrcItem where
  id : String
  codename : String
deriving DecidableEq, Repr

structure SrcAsset where
  id : String
  fileName : String
deriving DecidableEq, Repr

structure ItemStateEntry where
  id : String
  item : Option SrcItem
  state : String
deriving DecidableEq, Repr

structure AssetStateEntry where
  id : String
  asset : Option SrcAsset
  state : String
deriving DecidableEq, Repr

def getContentItemsByIds (env : String → Option SrcItem) (itemIds : List String) :
    List SrcItem :=
  itemIds.filterMap env

def getAssetsByIds (env : String → Option SrcAsset) (assetIds : List String) :
    List SrcAsset :=
  assetIds.filterMap env

/-- `getItemStatesAsync`: one entry per requested id, `exists` with the
first fetched item carrying that id, else `doesNotExists`. -/
def getItemStates (env : String → Option SrcItem) (itemIds : List String) :
    List ItemStateEntry :=
  itemIds.map (fun itemId =>
    match (getContentItemsByIds env itemIds).find? (fun m => m.id == itemId) with
    | some item => ⟨itemId, some item, "exists"⟩
    | none => ⟨itemId, none, "doesNotExists"⟩)

/-- `getAssetStatesAsync`, same shape for assets. -/
def getAssetStates (env : String → Option SrcAsset) (assetIds : List String) :
    List AssetStateEntry :=
  assetIds.map (fun assetId =>
    match (getAssetsByIds env assetIds).find? (fun m => m.id == assetId) with
    | some asset => ⟨assetId, some asset, "exists"⟩
    | none => ⟨assetId, none, "doesNotExists"⟩)

/-- The `getItemStateInSourceEnvironment` closure of the export
context. -/
def getItemStateInSourceEnvironment (itemStates : List ItemStateEntry)
    (id : String) : Except String ItemStateEntry :=
  match itemStates.find? (fun m => m.id == id) with
  | none =>
    Except.error ("Invalid state for item \x27" ++ id ++
      "\x27. It is expected that all item states will exist")
  | some itemState => Except.ok itemState

/-- The `getAssetStateInSourceEnvironment` closure of the export
context. -/
def getAssetStateInSourceEnvironment (assetStates : List AssetStateEntry)
    (id : String) : Except String AssetStateEntry :=
  match assetStates.find? (fun m => m.id == id) with
  | none =>
    Except.error ("Invalid state for asset \x27" ++ id ++
      "\x27. It is expected that all asset states will exist")
  | some assetState => Except.ok assetState

/-! ## Theorems for the claims -/

/-- Claim C1 (code bug): the claim says that with `skipFailedItems =
true` an error thrown while importing one content item is caught and
logged and the remaining items are still processed.  In the source the
per-item `await` stands immediately before an EMPTY `try` block, so the
`catch` that inspects `skipFailedItems` can never fire: the run aborts
on the first failing item either way.  Evaluated at the failing input
(two items, the first of which throws, `skipFailedItems = true`): the
code aborts with the error, while the claimed behaviour would log the
failure and return the surviving second item. -/
theorem importContentItems_skipFailedItems_is_dead_code :
    importContentItemsRun (α := String) true
        [Except.error "failed to import first item", Except.ok "second_item"]
      = Except.error "failed to import first item"
    ∧ importContentItemsClaimed (α := String) true
        [Except.error "failed to import first item", Except.ok "second_item"]
      = Except.ok ["second_item"] :=
  ⟨rfl, rfl⟩

/-- Claim C3 (code bug): the claim says that targeting step `draft`
when the language variant is already in `draft` performs zero
management-API calls.  The run never receives the current step of the
variant at all; the only no-op condition of the final branch compares
the WORKFLOW codename with the target STEP codename, contradicting the
inline source comment that the item is already in the target workflow
step.  Evaluated at a workflow named `default` whose steps include
`draft`: targeting `draft` performs one change-workflow call no matter
what step the variant is currently in. -/
theorem setWorkflow_draft_target_is_not_a_noop :
    setWorkflowOfLanguageVariant
        [⟨"default", ⟨"published", "pub-id"⟩, ⟨"archived", "arch-id"⟩,
          ⟨"scheduled", "sched-id"⟩, [⟨"draft", "draft-id"⟩]⟩]
        "default" "draft" UnpublishOutcome.success
      = ⟨[MapiCall.changeWorkflow "draft" "default"], Except.ok ()⟩ :=
  rfl

/-- Claim C5 (confirmed): when the view call reports a 404, the item is
created with exactly the incoming name, type codename, codename and
collection codename and the status is `created`; a non-404 view error
propagates unchanged and no create call is issued. -/
theorem prepareContentItem_404_creates_other_errors_propagate
    (parsedContentItem : ParsedContentItemSystem) (e : String) :
    (prepareContentItem parsedContentItem ViewOutcome.notFound404).result
      = Except.ok
          (⟨parsedContentItem.name, parsedContentItem.codename,
            parsedContentItem.type, parsedContentItem.collection⟩,
            PrepareStatus.created)
    ∧ (prepareContentItem parsedContentItem ViewOutcome.notFound404).calls
      = [ItemMapiCall.view parsedContentItem.codename,
         ItemMapiCall.addItem parsedContentItem.name parsedContentItem.type
           parsedContentItem.codename parsedContentItem.collection]
    ∧ (prepareContentItem parsedContentItem (ViewOutcome.otherError e)).result
      = Except.error e
    ∧ (prepareContentItem parsedContentItem (ViewOutcome.otherError e)).calls
      = [ItemMapiCall.view parsedContentItem.codename] :=
  ⟨rfl, rfl, rfl, rfl⟩

/-- Claim C9 (counterexample): the claim says the text and custom
transforms on import produce null when the portable value is empty or
absent.  The custom transform maps an absent value to the empty string,
not null, and the text transform maps the empty string to the empty
string, not null. -/
theorem text_custom_transforms_claim_fails :
    customImportTransform none = some ""
    ∧ customImportTransform none ≠ none
    ∧ textImportTransform (some (PortableValue.str "")) = some ""
    ∧ textImportTransform (some (PortableValue.str "")) ≠ none := by
  refine ⟨rfl, ?_, rfl, ?_⟩ <;> simp [customImportTransform, textImportTransform]

/-- Claim C9 (amended): on import the text transform produces the raw
string of the portable value and null exactly when the value is absent,
while the custom transform produces the raw string and the empty
string, never null, when the value is absent. -/
theorem text_custom_transforms_amended (value : Option PortableValue) :
    (textImportTransform value = none ↔ value = none)
    ∧ (∀ v, value = some v → textImportTransform value = some (jsToString v))
    ∧ customImportTransform value ≠ none
    ∧ customImportTransform none = some ""
    ∧ (∀ v, value = some v → customImportTransform value = some (jsToString v)) := by
  cases value <;> simp [textImportTransform, customImportTransform]

theorem text_custom_transforms_amended_witness :
    textImportTransform (some (PortableValue.str "hello")) = some "hello" :=
  (text_custom_transforms_amended (some (PortableValue.str "hello"))).2.1
    (PortableValue.str "hello") rfl

/-- Claim C7 (confirmed): `convertComponentCodenameToId` is a pure
function of the codename; when the underscore-normalized codename is a
valid uuid it is returned as-is, otherwise the stable hash uuid of the
original codename is returned, and equal codenames always yield equal
identifiers. -/
theorem convertComponentCodenameToId_spec (codename : String) :
    (validateUuid (underscoreToDash codename) = true →
      convertComponentCodenameToId codename = underscoreToDash codename)
    ∧ (validateUuid (underscoreToDash codename) = false →
      convertComponentCodenameToId codename = uuidByString codename)
    ∧ (∀ other : String, other = codename →
      convertComponentCodenameToId other = convertComponentCodenameToId codename) := by
  refine ⟨?_, ?_, ?_⟩
  · intro h
    simp [convertComponentCodenameToId, h]
  · intro h
    simp [convertComponentCodenameToId, h]
  · intro other h
    rw [h]

set_option maxRecDepth 40000 in
theorem convertComponentCodenameToId_spec_witness :
    convertComponentCodenameToId "217075db_76e6_46fd_9548_574db52849a5"
      = "217075db-76e6-46fd-9548-574db52849a5"
    ∧ convertComponentCodenameToId "my_component_codename"
      = uuidByString "my_component_codename" := by
  constructor
  · have h : validateUuid (underscoreToDash "217075db_76e6_46fd_9548_574db52849a5") = true := by
      decide
    exact ((convertComponentCodenameToId_spec "217075db_76e6_46fd_9548_574db52849a5").1 h).trans
      (by decide)
  · have h : validateUuid (underscoreToDash "my_component_codename") = false := by
      decide
    exact (convertComponentCodenameToId_spec "my_component_codename").2.1 h

/-- Claim C2 (counterexample): the claim says the upsert is performed
if and only if the incoming name differs from the target name or the
incoming collection codename differs from the collection codename of
the target item.  Here both names are equal, the target item lives in
collection `a` and the incoming item names collection `b`, yet the
decision is skip with no mutation: the source compares the incoming
codename against the collection resolved FROM that same codename, which
never differs. -/
theorem shouldUpdateContentItem_ignores_collection_change :
    importExistingItemAction ⟨"Article", "article", "item1", "b"⟩
        ⟨"Article", "item1", "1"⟩ [⟨"1", "a"⟩, ⟨"2", "b"⟩]
      = some ImportAction.skip
    ∧ targetCollectionCodename ⟨"Article", "item1", "1"⟩ [⟨"1", "a"⟩, ⟨"2", "b"⟩]
      = some "a"
    ∧ ("b" : String) ≠ "a" := by
  refine ⟨rfl, rfl, by decide⟩

/-- Claim C2 (amended): for an existing target item, when the incoming
collection codename resolves in the target collection list, the upsert
is performed if and only if the incoming system name differs from the
target name; the collection comparison of the source is vacuous, so a
collection difference alone never triggers the mutation, and an
unresolvable incoming collection codename is a fatal error. -/
theorem importExistingItemAction_name_only
    (parsedContentItem : ParsedContentItemSystem) (contentItem : TargetContentItem)
    (collections : List Collection) (collection : Collection)
    (hfind : collections.find? (fun m => m.codename == parsedContentItem.collection)
      = some collection) :
    importExistingItemAction parsedContentItem contentItem collections
      = some (if parsedContentItem.name != contentItem.name then ImportAction.upsert
          else ImportAction.skip)
    ∧ (importExistingItemAction parsedContentItem contentItem collections
        = some ImportAction.upsert ↔ parsedContentItem.name ≠ contentItem.name) := by
  have hcodename : collection.codename = parsedContentItem.collection := by
    have := List.find?_some hfind
    simpa using this
  have hmain : importExistingItemAction parsedContentItem contentItem collections
      = some (if parsedContentItem.name != contentItem.name then ImportAction.upsert
          else ImportAction.skip) := by
    unfold importExistingItemAction shouldUpdateContentItem
    rw [hfind]
    simp [hcodename]
  refine ⟨hmain, ?_⟩
  rw [hmain]
  by_cases hname : parsedContentItem.name = contentItem.name <;> simp [hname]

theorem importExistingItemAction_name_only_witness :
    importExistingItemAction ⟨"New name", "article", "item1", "b"⟩
        ⟨"Old name", "item1", "2"⟩ [⟨"2", "b"⟩]
      = some ImportAction.upsert :=
  (importExistingItemAction_name_only ⟨"New name", "article", "item1", "b"⟩
      ⟨"Old name", "item1", "2"⟩ [⟨"2", "b"⟩] ⟨"2", "b"⟩ rfl).2.mpr (by decide)

theorem hasSub_append_left (sub s t : String) (h : hasSub sub t) : hasSub sub (s ++ t) := by
  obtain ⟨p, q, hp⟩ := h
  exact ⟨s.data ++ p, q, by simp [string_data_append, hp]⟩

/-- Claim C4 (confirmed): whenever the target workflow step is the
archived step, the run attempts unpublish first; a recognized
content-management domain error is only logged and the run continues,
any other unpublish error propagates; afterwards exactly one
change-workflow call moves the variant to the archived step of the
resolved workflow. -/
theorem setWorkflow_archived_unpublish_then_archive
    (workflows : List Workflow) (workflowCodename workflowStepCodename : String)
    (workflow : Workflow) (step : WorkflowStep) (unpublishOutcome : UnpublishOutcome)
    (hresolve : getWorkflowAndStep workflowStepCodename workflowCodename workflows
      = Except.ok (workflow, step))
    (hpub : doesRepresentPublishedStep workflowStepCodename workflows = false)
    (hsched : doesRepresentScheduledStep workflowStepCodename workflows = false)
    (harch : doesRepresentArchivedStep workflowStepCodename workflows = true) :
    (setWorkflowOfLanguageVariant workflows workflowCodename workflowStepCodename
        unpublishOutcome).calls.head? = some MapiCall.unpublish
    ∧ (∀ e, unpublishOutcome = UnpublishOutcome.otherError e →
        setWorkflowOfLanguageVariant workflows workflowCodename workflowStepCodename
            unpublishOutcome
          = ⟨[MapiCall.unpublish], Except.error e⟩)
    ∧ ((∀ e, unpublishOutcome ≠ UnpublishOutcome.otherError e) →
        setWorkflowOfLanguageVariant workflows workflowCodename workflowStepCodename
            unpublishOutcome
          = ⟨[MapiCall.unpublish,
              MapiCall.changeWorkflow workflow.archivedStep.codename workflow.codename],
              Except.ok ()⟩) := by
  have hrun : setWorkflowOfLanguageVariant workflows workflowCodename workflowStepCodename
      unpublishOutcome
      = match unpublishOutcome with
        | UnpublishOutcome.otherError e => ⟨[MapiCall.unpublish], Except.error e⟩
        | _ =>
          ⟨[MapiCall.unpublish,
            MapiCall.changeWorkflow workflow.archivedStep.codename workflow.codename],
            Except.ok ()⟩ := by
    unfold setWorkflowOfLanguageVariant
    rw [hresolve]
    simp [hpub, hsched, harch]
  refine ⟨?_, ?_, ?_⟩
  · rw [hrun]
    cases unpublishOutcome <;> rfl
  · intro e he
    rw [hrun, he]
  · intro hnotother
    rw [hrun]
    cases unpublishOutcome with
    | success => rfl
    | domainError m => rfl
    | otherError e => exact absurd rfl (hnotother e)

theorem setWorkflow_archived_unpublish_then_archive_witness :
    setWorkflowOfLanguageVariant
        [⟨"default", ⟨"published", "pub-id"⟩, ⟨"archived", "arch-id"⟩,
          ⟨"scheduled", "sched-id"⟩, [⟨"draft", "draft-id"⟩]⟩]
        "default" "archived" (UnpublishOutcome.domainError "variant is not published")
      = ⟨[MapiCall.unpublish, MapiCall.changeWorkflow "archived" "default"],
          Except.ok ()⟩ :=
  (setWorkflow_archived_unpublish_then_archive
      [⟨"default", ⟨"published", "pub-id"⟩, ⟨"archived", "arch-id"⟩,
        ⟨"scheduled", "sched-id"⟩, [⟨"draft", "draft-id"⟩]⟩]
      "default" "archived"
      ⟨"default", ⟨"published", "pub-id"⟩, ⟨"archived", "arch-id"⟩,
        ⟨"scheduled", "sched-id"⟩, [⟨"draft", "draft-id"⟩]⟩
      ⟨"archived", "arch-id"⟩ (UnpublishOutcome.domainError "variant is not published")
      rfl rfl rfl rfl).2.2 (by intro e h; cases h)

/-- Claim C6 (confirmed): `shouldUpdateAsset` answers false exactly
when source and target agree on the collection codename, the normalized
per-language descriptions, the normalized title and the binary identity
given by size plus filename, and answers true as soon as any one of the
four differs; `shouldReplaceBinaryFile` answers true exactly when size
or filename differ and is unaffected by the other three inputs. -/
theorem shouldUpdateAsset_and_binary_decision
    (migrationAsset : MigrationAssetM) (targetAsset : TargetAsset)
    (collections : List Collection) (languages : List LanguageModel)
    (targetDescriptions : List MigAssetDescription)
    (hmap : mapToMigrationDescriptions targetAsset languages
      = Except.ok targetDescriptions) :
    (shouldUpdateAsset migrationAsset targetAsset collections languages
        = Except.ok false ↔
      ((collections.find? (fun m => some m.id == targetAsset.collectionId)).map
          Collection.codename = migrationAsset.collection
        ∧ sourceNormalizedDescriptions migrationAsset = targetDescriptions
        ∧ normalizeNonEmpty migrationAsset.title = normalizeNonEmpty targetAsset.title
        ∧ migrationAsset.binarySize = targetAsset.size
        ∧ migrationAsset.filename = targetAsset.fileName))
    ∧ (shouldReplaceBinaryFile migrationAsset targetAsset = true ↔
        ¬(migrationAsset.binarySize = targetAsset.size
          ∧ migrationAsset.filename = targetAsset.fileName))
    ∧ (∀ (otherSource : MigrationAssetM) (otherTarget : TargetAsset),
        otherSource.binarySize = migrationAsset.binarySize →
        otherSource.filename = migrationAsset.filename →
        otherTarget.size = targetAsset.size →
        otherTarget.fileName = targetAsset.fileName →
        shouldReplaceBinaryFile otherSource otherTarget
          = shouldReplaceBinaryFile migrationAsset targetAsset) := by
  have hdesc : areDescriptionsIdentical migrationAsset targetAsset languages
      = Except.ok (sourceNormalizedDescriptions migrationAsset == targetDescriptions) := by
    unfold areDescriptionsIdentical
    rw [hmap]
    rfl
  refine ⟨?_, ?_, ?_⟩
  · cases hcol : isInSameCollection migrationAsset targetAsset collections <;>
      cases hd : sourceNormalizedDescriptions migrationAsset == targetDescriptions <;>
        cases ht : isTitleIdentical migrationAsset targetAsset <;>
          cases hb : isBinaryFileIdentical migrationAsset targetAsset <;>
            simp [isInSameCollection, isTitleIdentical, isBinaryFileIdentical] at hcol hd ht hb <;>
              simp [shouldUpdateAsset, hdesc, isInSameCollection, isTitleIdentical,
                isBinaryFileIdentical, hcol, hd, ht, hb]
  · cases hs : decide (migrationAsset.binarySize = targetAsset.size) <;>
      cases hf : decide (migrationAsset.filename = targetAsset.fileName) <;>
        simp at hs hf <;>
          simp [shouldReplaceBinaryFile, isBinaryFileIdentical, hs, hf]
  · intro otherSource otherTarget h1 h2 h3 h4
    simp [shouldReplaceBinaryFile, isBinaryFileIdentical, h1, h2, h3, h4]

theorem shouldUpdateAsset_and_binary_decision_witness :
    shouldUpdateAsset
        ⟨none, none, none, "logo.png", 7⟩
        ⟨none, [], none, "logo.png", 7⟩ [] []
      = Except.ok false :=
  ((shouldUpdateAsset_and_binary_decision
      ⟨none, none, none, "logo.png", 7⟩
      ⟨none, [], none, "logo.png", 7⟩ [] [] [] rfl).1).mpr
    (by refine ⟨rfl, rfl, rfl, rfl, rfl⟩)

set_option maxRecDepth 40000 in
/-- Claim C8 (counterexample): the claim says an unknown workflow-step
codename produces an error enumerating the valid step alternatives.
For a workflow named `default` whose steps are `draft`, `published`,
`scheduled` and `archived`, resolving the unknown step `bad_step`
produces an error that does not mention `draft` at all: the step error
only names the bad step codename and the workflow. -/
theorem getWorkflowAndStep_step_error_lacks_alternatives :
    getWorkflowAndStep "bad_step" "default"
        [⟨"default", ⟨"published", "pub-id"⟩, ⟨"archived", "arch-id"⟩,
          ⟨"scheduled", "sched-id"⟩, [⟨"draft", "draft-id"⟩]⟩]
      = Except.error
          "Workflow step with codename \x27bad_step\x27 does not exist within worklflow \x27default\x27"
    ∧ ¬ hasSub "draft"
        "Workflow step with codename \x27bad_step\x27 does not exist within worklflow \x27default\x27" :=
  ⟨rfl, by decide⟩

/-- Claim C8 (amended): resolving an unknown workflow codename throws a
fatal error that names the invalid codename and enumerates every
available workflow codename; resolving an unknown step codename within
a resolved workflow throws a fatal error that names the invalid step
codename and the workflow codename, but does not enumerate the valid
step alternatives. -/
theorem getWorkflowAndStep_error_contents
    (workflows : List Workflow) (workflowCodename workflowStepCodename : String) :
    (workflows.find? (fun m => jsToLower m.codename == jsToLower workflowCodename) = none →
      ∃ msg, getWorkflowAndStep workflowStepCodename workflowCodename workflows
          = Except.error msg
        ∧ hasSub workflowCodename msg
        ∧ ∀ w ∈ workflows, hasSub w.codename msg)
    ∧ (∀ workflow,
        workflows.find? (fun m => jsToLower m.codename == jsToLower workflowCodename)
          = some workflow →
        getWorkflowStep workflow workflowStepCodename = none →
        ∃ msg, getWorkflowAndStep workflowStepCodename workflowCodename workflows
            = Except.error msg
          ∧ hasSub workflowStepCodename msg
          ∧ hasSub workflow.codename msg) := by
  constructor
  · intro hnone
    refine ⟨unknownWorkflowMsg workflowCodename workflows, ?_, ?_, ?_⟩
    · simp [getWorkflowAndStep, hnone]
    · exact ⟨"Workflow with codename \x27".data,
        ("\x27 does not exist in target project" ++ ". "
          ++ "Available workflows are (" ++ toString workflows.length ++ "): "
          ++ joinSep ", " (workflows.map Workflow.codename)).data,
        by simp [unknownWorkflowMsg, string_data_append]⟩
    · intro w hw
      obtain ⟨p, q, hpq⟩ := hasSub_joinSep ", " w.codename
        (workflows.map Workflow.codename) (List.mem_map_of_mem Workflow.codename hw)
      exact ⟨("Workflow with codename \x27" ++ workflowCodename
          ++ "\x27 does not exist in target project" ++ ". "
          ++ "Available workflows are (" ++ toString workflows.length ++ "): ").data ++ p, q,
        by simp [unknownWorkflowMsg, string_data_append, hpq]⟩
  · intro workflow hfind hstep
    refine ⟨unknownStepMsg workflowStepCodename workflow, ?_, ?_, ?_⟩
    · simp [getWorkflowAndStep, hfind, hstep]
    · exact ⟨"Workflow step with codename \x27".data,
        ("\x27 does not exist within worklflow \x27" ++ workflow.codename ++ "\x27").data,
        by simp [unknownStepMsg, string_data_append]⟩
    · exact ⟨("Workflow step with codename \x27" ++ workflowStepCodename
          ++ "\x27 does not exist within worklflow \x27").data, "\x27".data,
        by simp [unknownStepMsg, string_data_append]⟩

theorem getWorkflowAndStep_error_contents_witness :
    ∃ msg, getWorkflowAndStep "draft" "missing"
        [⟨"default", ⟨"published", "pub-id"⟩, ⟨"archived", "arch-id"⟩,
          ⟨"scheduled", "sched-id"⟩, [⟨"draft", "draft-id"⟩]⟩]
        = Except.error msg
      ∧ hasSub "missing" msg
      ∧ ∀ w ∈ [(⟨"default", ⟨"published", "pub-id"⟩, ⟨"archived", "arch-id"⟩,
          ⟨"scheduled", "sched-id"⟩, [⟨"draft", "draft-id"⟩]⟩ : Workflow)],
          hasSub w.codename msg :=
  (getWorkflowAndStep_error_contents
      [⟨"default", ⟨"published", "pub-id"⟩, ⟨"archived", "arch-id"⟩,
        ⟨"scheduled", "sched-id"⟩, [⟨"draft", "draft-id"⟩]⟩]
      "missing" "draft").1 rfl

/-- For a requested id, the find over the fetched entities answers
exactly what the source environment answers, provided the environment
reports entities under their own id. -/
theorem find_filterMap_env {α : Type} (idOf : α → String) (env : String → Option α)
    (ids : List String) (id : String)
    (henv : ∀ k x, env k = some x → idOf x = k) (hmem : id ∈ ids) :
    (ids.filterMap env).find? (fun m => idOf m == id) = env id := by
  cases hid : env id with
  | some x =>
    have hxmem : x ∈ ids.filterMap env := List.mem_filterMap.mpr ⟨id, hmem, hid⟩
    have hsome : ((ids.filterMap env).find? (fun m => idOf m == id)).isSome :=
      List.find?_isSome.mpr ⟨x, hxmem, by simp [henv id x hid]⟩
    obtain ⟨y, hy⟩ := Option.isSome_iff_exists.mp hsome
    have hyp := List.find?_some hy
    have hyid : idOf y = id := by simpa using hyp
    have hymem : y ∈ ids.filterMap env := List.mem_of_find?_eq_some hy
    obtain ⟨k, _, hk⟩ := List.mem_filterMap.mp hymem
    have hky : idOf y = k := henv k y hk
    have henvy : env id = some y := by
      rw [← hyid, hky]
      exact hk
    have hxy : y = x := by
      rw [hid] at henvy
      exact (Option.some.inj henvy).symm
    rw [hy, hxy]
  | none =>
    refine List.find?_eq_none.mpr ?_
    intro y hymem hyp
    obtain ⟨k, _, hk⟩ := List.mem_filterMap.mp hymem
    have hky : idOf y = k := henv k y hk
    have hkid : k = id := by
      rw [← hky]
      simpa using hyp
    rw [hkid] at hk
    rw [hk] at hid
    cases hid

/-- Claim C10 (confirmed): every requested id gets exactly one state
entry, `exists` carrying the entity when the source environment
returned it and `doesNotExists` with no entity otherwise, and the
export-context lookups never reach their invalid-state error for a
requested id.  The environment hypothesis says the view calls return
entities under the requested id, which the management API guarantees. -/
theorem states_cover_requested_ids
    (itemEnv : String → Option SrcItem) (assetEnv : String → Option SrcAsset)
    (itemIds assetIds : List String) (itemId assetId : String)
    (hItemEnv : ∀ k entity, itemEnv k = some entity → entity.id = k)
    (hAssetEnv : ∀ k entity, assetEnv k = some entity → entity.id = k)
    (hItemMem : itemId ∈ itemIds) (hAssetMem : assetId ∈ assetIds) :
    (∃ st ∈ getItemStates itemEnv itemIds,
      st.id = itemId ∧ st.item = itemEnv itemId
        ∧ st.state = if (itemEnv itemId).isSome then "exists" else "doesNotExists")
    ∧ (∃ stOk, getItemStateInSourceEnvironment (getItemStates itemEnv itemIds) itemId
        = Except.ok stOk)
    ∧ (∃ st ∈ getAssetStates assetEnv assetIds,
      st.id = assetId ∧ st.asset = assetEnv assetId
        ∧ st.state = if (assetEnv assetId).isSome then "exists" else "doesNotExists")
    ∧ (∃ stOk, getAssetStateInSourceEnvironment (getAssetStates assetEnv assetIds) assetId
        = Except.ok stOk) := by
  have hitemfind : (getContentItemsByIds itemEnv itemIds).find? (fun m => m.id == itemId)
      = itemEnv itemId :=
    find_filterMap_env SrcItem.id itemEnv itemIds itemId hItemEnv hItemMem
  have hassetfind : (getAssetsByIds assetEnv assetIds).find? (fun m => m.id == assetId)
      = assetEnv assetId :=
    find_filterMap_env SrcAsset.id assetEnv assetIds assetId hAssetEnv hAssetMem
  have hitem : (match (getContentItemsByIds itemEnv itemIds).find? (fun m => m.id == itemId) with
      | some item => (⟨itemId, some item, "exists"⟩ : ItemStateEntry)
      | none => ⟨itemId, none, "doesNotExists"⟩) ∈ getItemStates itemEnv itemIds := by
    unfold getItemStates
    exact List.mem_map_of_mem _ hItemMem
  have hasset : (match (getAssetsByIds assetEnv assetIds).find? (fun m => m.id == assetId) with
      | some asset => (⟨assetId, some asset, "exists"⟩ : AssetStateEntry)
      | none => ⟨assetId, none, "doesNotExists"⟩) ∈ getAssetStates assetEnv assetIds := by
    unfold getAssetStates
    exact List.mem_map_of_mem _ hAssetMem
  refine ⟨?_, ?_, ?_, ?_⟩
  · rw [hitemfind] at hitem
    cases hid : itemEnv itemId with
    | some item =>
      rw [hid] at hitem
      exact ⟨⟨itemId, some item, "exists"⟩, hitem, rfl, rfl, rfl⟩
    | none =>
      rw [hid] at hitem
      exact ⟨⟨itemId, none, "doesNotExists"⟩, hitem, rfl, rfl, rfl⟩
  · rw [hitemfind] at hitem
    have hfound : ((getItemStates itemEnv itemIds).find? (fun m => m.id == itemId)).isSome := by
      refine List.find?_isSome.mpr ?_
      cases hid : itemEnv itemId with
      | some item =>
        rw [hid] at hitem
        exact ⟨_, hitem, by simp⟩
      | none =>
        rw [hid] at hitem
        exact ⟨_, hitem, by simp⟩
    obtain ⟨st, hst⟩ := Option.isSome_iff_exists.mp hfound
    exact ⟨st, by unfold getItemStateInSourceEnvironment; rw [hst]⟩
  · rw [hassetfind] at hasset
    cases hid : assetEnv assetId with
    | some asset =>
      rw [hid] at hasset
      exact ⟨⟨assetId, some asset, "exists"⟩, hasset, rfl, rfl, rfl⟩
    | none =>
      rw [hid] at hasset
      exact ⟨⟨assetId, none, "doesNotExists"⟩, hasset, rfl, rfl, rfl⟩
  · rw [hassetfind] at hasset
    have hfound : ((getAssetStates assetEnv assetIds).find? (fun m => m.id == assetId)).isSome := by
      refine List.find?_isSome.mpr ?_
      cases hid : assetEnv assetId with
      | some asset =>
        rw [hid] at hasset
        exact ⟨_, hasset, by simp⟩
      | none =>
        rw [hid] at hasset
        exact ⟨_, hasset, by simp⟩
    obtain ⟨st, hst⟩ := Option.isSome_iff_exists.mp hfound
    exact ⟨st, by unfold getAssetStateInSourceEnvironment; rw [hst]⟩

theorem states_cover_requested_ids_witness :
    ∃ stOk, getItemStateInSourceEnvironment
        (getItemStates (fun k => if k == "item-1" then some ⟨"item-1", "article"⟩ else none)
          ["item-1", "item-2"]) "item-2"
      = Except.ok stOk :=
  (states_cover_requested_ids
      (fun k => if k == "item-1" then some ⟨"item-1", "article"⟩ else none)
      (fun k => some ⟨k, "file.png"⟩)
      ["item-1", "item-2"] ["asset-1"] "item-2" "asset-1"
      (by
        intro k x h
        simp only [] at h
        split at h
        · rename_i hk
          simp at hk
          cases h
          rw [hk]
        · simp at h)
      (by
        intro k x h
        cases h
        rfl)
      (by simp) (by simp)).2.1

end Migration
